import Mathlib

/-!
Shallow embedding of the `sentinel` anomaly-detection core.

Floats are modelled as elements of a linear ordered field `K` (instantiated
at `ℚ` where everything is decidable and at `ℝ` where a square root is
needed).  The `numpy.linalg` library calls (`cond`, `inv`, `pinv`) are
modelled as an abstract oracle `LinAlgOps`: `cond` returning `none` models a
non-finite condition number (`inf` or a `LinAlgError`), `inv` returning
`none` models `LinAlgError` on inversion.
-/

namespace Sentinel

/-- src/config/defaults.py: EPSILON_BASE = 1e-4. -/
def EPSILON_BASE (K : Type) [DivisionRing K] : K := 1 / 10000

/-- src/config/defaults.py: CONDITION_NUMBER = 1e6. -/
def CONDITION_NUMBER (K : Type) [DivisionRing K] : K := 1000000

/-- src/config/defaults.py: CONTAMINATION_LIMIT = 0.8. -/
def CONTAMINATION_LIMIT (K : Type) [DivisionRing K] : K := 8 / 10

/-- src/config/defaults.py: RISK_ALERT_THRESHOLD = 20.0. -/
def RISK_ALERT_THRESHOLD (K : Type) [DivisionRing K] : K := 20

/-- src/config/defaults.py: CUSUM_K = 0.05. -/
def CUSUM_K (K : Type) [DivisionRing K] : K := 5 / 100

/-- src/config/defaults.py: CUSUM_THRESHOLD = 10.0. -/
def CUSUM_THRESHOLD (K : Type) [DivisionRing K] : K := 10

/-- Oracle for the `numpy.linalg` calls used by src/core/stability.py. -/
structure LinAlgOps (K : Type) (d : ℕ) where
  cond : Matrix (Fin d) (Fin d) K → Option K
  inv : Matrix (Fin d) (Fin d) K → Option (Matrix (Fin d) (Fin d) K)
  pinv : Matrix (Fin d) (Fin d) K → Matrix (Fin d) (Fin d) K

variable {K : Type} [LinearOrderedField K] {d : ℕ}

/-- src/core/stability.py `apply_regularization`: `cov + np.eye(d) * epsilon`. -/
def apply_regularization (cov : Matrix (Fin d) (Fin d) K) (epsilon : K) :
    Matrix (Fin d) (Fin d) K :=
  cov + epsilon • (1 : Matrix (Fin d) (Fin d) K)

/-- src/core/stability.py `check_condition_number`: `some c` is a finite
condition number; `none` models `inf` (decomposition failure or an infinite
result), for which the comparison with `MAX_CONDITION_NUMBER` is false. -/
def check_condition_number (ops : LinAlgOps K d)
    (cov : Matrix (Fin d) (Fin d) K) : Option K :=
  ops.cond cov

/-- The retry loop inside src/core/stability.py `safe_invert`
(`for _ in range(max_retries)` with `current_eps *= 10.0`); fuel counts the
remaining iterations, and exhausting it is the `return pinv..., True,
base_epsilon` line. -/
def safe_invert_loop (ops : LinAlgOps K d) (cov : Matrix (Fin d) (Fin d) K)
    (base_epsilon : K) :
    ℕ → K → Matrix (Fin d) (Fin d) K × Bool × K
  | 0, _ => (ops.pinv (apply_regularization cov base_epsilon), true, base_epsilon)
  | n + 1, current_eps =>
    let reg_cov := apply_regularization cov current_eps
    match check_condition_number ops reg_cov with
    | some cond_num =>
      if cond_num < CONDITION_NUMBER K then
        match ops.inv reg_cov with
        | some inv_cov => (inv_cov, false, current_eps)
        | none => safe_invert_loop ops cov base_epsilon n (current_eps * 10)
      else safe_invert_loop ops cov base_epsilon n (current_eps * 10)
    | none => safe_invert_loop ops cov base_epsilon n (current_eps * 10)

/-- src/core/stability.py `safe_invert`: up to 5 regularised inversion
attempts, then pseudo-inverse with the freeze flag set. -/
def safe_invert (ops : LinAlgOps K d) (cov : Matrix (Fin d) (Fin d) K)
    (base_epsilon : K) : Matrix (Fin d) (Fin d) K × Bool × K :=
  safe_invert_loop ops cov base_epsilon 5 base_epsilon

/-- src/core/contamination.py `is_contaminated`: `severity >= severity_limit`. -/
def is_contaminated (severity : K) (severity_limit : K) : Bool :=
  decide (severity_limit ≤ severity)

/-- src/core/anomaly.py `RiskAccumulator` state: `risk` and `alert_threshold`. -/
structure RiskAccumulator (K : Type) where
  risk : K
  alert_threshold : K

/-- src/core/anomaly.py `RiskAccumulator.update`. -/
def RiskAccumulator.update (acc : RiskAccumulator K) (severity : K) :
    RiskAccumulator K × Bool :=
  let risk1 := if 1 < severity
    then acc.risk + 4 * (severity - 1) ^ 2
    else acc.risk * (95 / 100)
  let is_anomaly := decide (acc.alert_threshold < risk1)
  let risk2 := if is_anomaly then risk1 * (1 / 2) else risk1
  (⟨risk2, acc.alert_threshold⟩, is_anomaly)

/-- src/core/drift.py `DriftDetector` state: `c_t`, slack `k`, `threshold`. -/
structure DriftDetector (K : Type) where
  c_t : K
  k : K
  threshold : K

/-- src/core/drift.py `DriftDetector.update_cusum`. -/
def DriftDetector.update_cusum (det : DriftDetector K) (severity : K) :
    DriftDetector K × Bool :=
  let c := max 0 (det.c_t + (severity - det.k))
  let is_drift := decide (det.threshold < c)
  (⟨if is_drift then 0 else c, det.k, det.threshold⟩, is_drift)

/-- src/core/updates.py `update_mean`: `(1 - λ)·μ + λ·x`. -/
def update_mean (mu_t : Fin d → K) (x_t : Fin d → K) (lambda_factor : K) :
    Fin d → K :=
  fun j => (1 - lambda_factor) * mu_t j + lambda_factor * x_t j

/-- src/core/updates.py `update_covariance`:
`(1 - λ)·Σ + λ·(x - μ)(x - μ)ᵀ` with the pre-update mean `μ`. -/
def update_covariance (cov_t : Matrix (Fin d) (Fin d) K) (mu_t : Fin d → K)
    (x_t : Fin d → K) (lambda_factor : K) : Matrix (Fin d) (Fin d) K :=
  let diff : Fin d → K := fun j => x_t j - mu_t j
  let rank_one_update : Matrix (Fin d) (Fin d) K :=
    Matrix.of fun i j => diff i * diff j
  (1 - lambda_factor) • cov_t + lambda_factor • rank_one_update

/-- src/core/model.py `StatisticalModel` fields.  In the source `mu`, `cov`
and `cov_inv` start as `None`; that pre-initialisation placeholder is
represented by arbitrary field values guarded by `is_initialized = false`
(the source never reads the fields while they are `None`). -/
structure StatisticalModel (K : Type) (d : ℕ) where
  lambda_factor : K
  mu : Fin d → K
  cov : Matrix (Fin d) (Fin d) K
  cov_inv : Matrix (Fin d) (Fin d) K
  threshold : K
  is_initialized : Bool
  is_frozen : Bool

/-- src/core/model.py `StatisticalModel.__init__`: the numeric fields start
at the `None` placeholder (here 0) and both flags start false. -/
def StatisticalModel.init (lambda_factor : K) : StatisticalModel K d :=
  ⟨lambda_factor, 0, 0, 0, 0, false, false⟩

/-- src/core/model.py `StatisticalModel.update`. -/
def StatisticalModel.update (m : StatisticalModel K d) (ops : LinAlgOps K d)
    (x_t : Fin d → K) (severity : K) (severity_limit : K) :
    StatisticalModel K d :=
  if !m.is_initialized || m.is_frozen then m
  else if severity_limit ≤ severity then m
  else
    let new_cov := update_covariance m.cov m.mu x_t m.lambda_factor
    let new_mu := update_mean m.mu x_t m.lambda_factor
    let inverted := safe_invert ops new_cov (EPSILON_BASE K)
    if inverted.2.1 then { m with is_frozen := true }
    else { m with cov := new_cov, mu := new_mu, cov_inv := inverted.1 }

/-- Insertion into a sorted list, used to model the ascending sort performed
inside `np.percentile`. -/
def insertSorted (a : K) : List K → List K
  | [] => [a]
  | b :: t => if a ≤ b then a :: b :: t else b :: insertSorted a t

/-- Ascending insertion sort, modelling the sort inside `np.percentile`. -/
def sortList : List K → List K
  | [] => []
  | a :: t => insertSorted a (sortList t)

/-- Model of `np.percentile(values, q)` with the default linear
interpolation: on the ascending sort `s` of the values it returns
`s[i] + (pos - i) * (s[i+1] - s[i])` where `pos = q/100 * (n-1)` and
`i = floor pos` (the upper index clamped to the last element). -/
def percentile [FloorRing K] (values : List K) (q : K) : K :=
  let s := sortList values
  if s.length = 0 then 0
  else
    let pos := q / 100 * ((s.length : K) - 1)
    let i := Nat.floor pos
    let lo := s.getD i 0
    let hi := s.getD (min (i + 1) (s.length - 1)) 0
    lo + (pos - (i : K)) * (hi - lo)

/-- src/utils/math_utils.py `calculate_mahalanobis`:
`sqrt(max(0, delta @ cov_inv @ delta))` with `delta = x - mu`. -/
noncomputable def calculate_mahalanobis (x : Fin d → ℝ) (mu : Fin d → ℝ)
    (cov_inv : Matrix (Fin d) (Fin d) ℝ) : ℝ :=
  let delta : Fin d → ℝ := fun j => x j - mu j
  let m_squared := Matrix.dotProduct (Matrix.vecMul delta cov_inv) delta
  Real.sqrt (max 0 m_squared)

/-- src/core/anomaly.py `calculate_severity`: `distance / threshold`, or 0
when `threshold <= 0`. -/
noncomputable def calculate_severity (x_t : Fin d → ℝ) (mu : Fin d → ℝ)
    (cov_inv : Matrix (Fin d) (Fin d) ℝ) (threshold : ℝ) : ℝ :=
  let distance := calculate_mahalanobis x_t mu cov_inv
  if threshold ≤ 0 then 0 else distance / threshold

/-- `np.mean(data, axis=0)` on a batch given as a list of row vectors. -/
def batchMean (data : List (Fin d → K)) : Fin d → K :=
  fun j => ((data.map fun x => x j).sum) / (data.length : K)

/-- `np.cov(data, rowvar=False)`: sample covariance with divisor `N - 1`. -/
def batchCov (data : List (Fin d → K)) : Matrix (Fin d) (Fin d) K :=
  let mu := batchMean data
  Matrix.of fun i j =>
    ((data.map fun x => (x i - mu i) * (x j - mu j)).sum) /
      ((data.length : K) - 1)

/-- src/core/model.py `StatisticalModel.initialize_from_batch` (named
`init_from_batch` in the design document): batch mean and covariance,
`safe_invert`, per-row Mahalanobis distances, and the 99th percentile as
the stored threshold.  The source applies no floor to the percentile. -/
noncomputable def StatisticalModel.init_from_batch (m : StatisticalModel ℝ d)
    (ops : LinAlgOps ℝ d) (data : List (Fin d → ℝ)) : StatisticalModel ℝ d :=
  let mu := batchMean data
  let cov := batchCov data
  let inverted := safe_invert ops cov (EPSILON_BASE ℝ)
  let cov_inv := inverted.1
  let distances := data.map fun x => calculate_mahalanobis x mu cov_inv
  { m with
    mu := mu
    cov := cov
    cov_inv := cov_inv
    is_frozen := inverted.2.1
    threshold := percentile distances 99
    is_initialized := true }

/-- Monitoring-relevant state of src/services/engine.py `SentinelEngine`. -/
structure SentinelEngine (d : ℕ) where
  model_short : StatisticalModel ℝ d
  model_long : StatisticalModel ℝ d
  risk_accumulator : RiskAccumulator ℝ
  drift_detector : DriftDetector ℝ

/-- src/services/engine.py `SentinelEngine._handle_monitoring` (state
transitions only; logging, divergence reporting and the UI callback do not
touch engine state): severity against the long model, risk update, CUSUM
update with the drift snap copying the long model tuple into the short
model, then the contamination-gated online updates of both models. -/
noncomputable def SentinelEngine.handle_monitoring (e : SentinelEngine d)
    (ops : LinAlgOps ℝ d) (x_t : Fin d → ℝ) : SentinelEngine d :=
  let severity := calculate_severity x_t e.model_long.mu e.model_long.cov_inv
    e.model_long.threshold
  let risk_step := e.risk_accumulator.update severity
  let drift_step := e.drift_detector.update_cusum severity
  let short_snapped :=
    if drift_step.2 then
      { e.model_short with
        mu := e.model_long.mu
        cov := e.model_long.cov
        cov_inv := e.model_long.cov_inv }
    else e.model_short
  if is_contaminated severity (CONTAMINATION_LIMIT ℝ) then
    { model_short := short_snapped
      model_long := e.model_long
      risk_accumulator := risk_step.1
      drift_detector := drift_step.1 }
  else
    { model_short :=
        short_snapped.update ops x_t severity (CONTAMINATION_LIMIT ℝ)
      model_long := e.model_long.update ops x_t severity (CONTAMINATION_LIMIT ℝ)
      risk_accumulator := risk_step.1
      drift_detector := drift_step.1 }

/-- On-disk state of one file as seen by src/core/persistence.py:
`missing` (path does not exist), `corrupt` (present but unreadable:
truncated archive, bad zip, malformed JSON), or `good` content. -/
inductive FileState (α : Type) : Type
  | missing : FileState α
  | corrupt : FileState α
  | good : α → FileState α

/-- `filepath.exists()` on a modelled file. -/
def FileState.existsb {α : Type} : FileState α → Bool
  | .missing => false
  | _ => true

/-- `np.load` on an archive file: raises (`Except.error`) on a missing or
corrupted file, otherwise yields the stored arrays. -/
def npLoad {α : Type} : FileState α → Except String α
  | .missing => .error "FileNotFoundError"
  | .corrupt => .error "BadZipFile"
  | .good a => .ok a

/-- `json.load` on the state file: raises `JSONDecodeError` on malformed
JSON. -/
def jsonLoad {α : Type} : FileState α → Except String α
  | .missing => .error "FileNotFoundError"
  | .corrupt => .error "JSONDecodeError"
  | .good a => .ok a

/-- Contents of a model archive: the arrays `mu`, `cov`, `cov_inv`. -/
structure ModelData (K : Type) (d : ℕ) where
  mu : Fin d → K
  cov : Matrix (Fin d) (Fin d) K
  cov_inv : Matrix (Fin d) (Fin d) K

/-- The parsed JSON state file, a string-keyed dictionary of floats. -/
def StateDict (K : Type) : Type := List (String × K)

/-- src/core/persistence.py `PersistenceManager.load_model`: `None` when
the file does not exist, `None` when reading raises, otherwise the arrays. -/
def load_model (f : FileState (ModelData K d)) : Option (ModelData K d) :=
  if f.existsb = false then none
  else
    match npLoad f with
    | .error _ => none
    | .ok data => some data

/-- src/core/persistence.py `PersistenceManager.load_state`: `{}` when the
file does not exist, `{}` when JSON decoding raises, otherwise the dict. -/
def load_state (f : FileState (StateDict K)) : StateDict K :=
  if f.existsb = false then []
  else
    match jsonLoad f with
    | .error _ => []
    | .ok state => state

/-- src/services/engine.py `SentinelEngine._attempt_load_state`: restore
both models and the risk scalar when both archives load and the state dict
has a `"threshold"` key, otherwise signal Training mode (`none`).  The
source guard `short_state and long_state and "threshold" in system_state`
is the `match` below (a loaded model dict is non-empty, hence truthy). -/
def attempt_load_state (fs fl : FileState (ModelData K d))
    (fj : FileState (StateDict K)) :
    Option (ModelData K d × ModelData K d × K × K) :=
  let short_state := load_model fs
  let long_state := load_model fl
  let system_state := load_state fj
  match short_state, long_state, system_state.lookup "threshold" with
  | some s, some l, some t => some (s, l, t, (system_state.lookup "risk").getD 0)
  | _, _, _ => none

/-- `self.is_training` after `_attempt_load_state`: true exactly when the
restore was not performed. -/
def is_training_after_load (fs fl : FileState (ModelData K d))
    (fj : FileState (StateDict K)) : Bool :=
  (attempt_load_state fs fl fj).isNone

/-- Positive definiteness of the quadratic form `v ↦ v C vᵀ`; the condition
under which a Mahalanobis distance of zero forces `x = mu`. -/
def PosDefQuadForm (C : Matrix (Fin d) (Fin d) ℝ) : Prop :=
  ∀ v : Fin d → ℝ, v ≠ 0 → 0 < Matrix.dotProduct (Matrix.vecMul v C) v

/-- Oracle over `ℚ`, dimension 1, whose condition check and direct
inversion always succeed. -/
def opsQ1 : LinAlgOps ℚ 1 := ⟨fun _ => some 1, fun A => some A, fun A => A⟩

/-- Oracle over `ℝ`, dimension 1, whose condition check always fails. -/
def opsNoneR1 : LinAlgOps ℝ 1 := ⟨fun _ => none, fun _ => none, fun _ => 0⟩

/-- Risk accumulator at the default alert threshold with no accrued risk. -/
def riskAcc20 : RiskAccumulator ℚ := ⟨0, 20⟩

/-- An initialised, frozen model over `ℚ`. -/
def frozenModelQ : StatisticalModel ℚ 1 := ⟨1 / 100, ![1], 1, 1, 1, true, true⟩

/-- An initialised, unfrozen model over `ℚ`. -/
def freshModelQ : StatisticalModel ℚ 1 := ⟨1 / 2, ![0], 1, 1, 1, true, false⟩

/-- An initialised, frozen short model over `ℝ` with mean `![1]`. -/
noncomputable def shortFrozenR : StatisticalModel ℝ 1 :=
  ⟨1 / 100, ![1], 1, 1, 1, true, true⟩

/-- An initialised, frozen long model over `ℝ` with mean `![0]`. -/
noncomputable def longFrozenR : StatisticalModel ℝ 1 :=
  ⟨1 / 1000, ![0], 1, 1, 1, true, true⟩

/-- An engine state whose CUSUM statistic is one tick away from drift and
whose short model is frozen. -/
noncomputable def engineEx : SentinelEngine 1 :=
  ⟨shortFrozenR, longFrozenR, ⟨0, 20⟩, ⟨21 / 2, 5 / 100, 10⟩⟩

/-- A degenerate training batch: two identical rows. -/
def batchConst : List (Fin 1 → ℝ) := [![5], ![5]]

/-- A freshly constructed model over `ℝ`. -/
noncomputable def modelInitR : StatisticalModel ℝ 1 :=
  StatisticalModel.init (1 / 100)

/-- A valid model archive payload over `ℚ`, dimension 1. -/
def modelDataQ : ModelData ℚ 1 := ⟨![0], 1, 1⟩

end Sentinel

namespace Sentinel

variable {K : Type} [LinearOrderedField K] {d : ℕ}

theorem mem_insertSorted {a b : K} {t : List K}
    (h : a ∈ insertSorted b t) : a = b ∨ a ∈ t := by
  induction t with
  | nil =>
    unfold insertSorted at h
    simp at h
    exact Or.inl h
  | cons c t ih =>
    unfold insertSorted at h
    by_cases hb : b ≤ c
    · rw [if_pos hb] at h
      rcases List.mem_cons.mp h with h1 | h1
      · exact Or.inl h1
      · exact Or.inr h1
    · rw [if_neg hb] at h
      rcases List.mem_cons.mp h with h1 | h1
      · exact Or.inr (h1 ▸ List.mem_cons_self c _)
      · rcases ih h1 with h2 | h2
        · exact Or.inl h2
        · exact Or.inr (List.mem_cons_of_mem c h2)

theorem mem_sortList {a : K} {l : List K} (h : a ∈ sortList l) : a ∈ l := by
  induction l with
  | nil => simp [sortList] at h
  | cons b t ih =>
    unfold sortList at h
    rcases mem_insertSorted h with h1 | h1
    · exact h1 ▸ List.mem_cons_self b t
    · exact List.mem_cons_of_mem b (ih h1)

theorem getD_nonneg {s : List K} (hs : ∀ x ∈ s, 0 ≤ x) (i : ℕ) :
    0 ≤ s.getD i 0 := by
  by_cases h : i < s.length
  · rw [List.getD_eq_getElem s 0 h]
    exact hs _ (List.getElem_mem h)
  · rw [List.getD_eq_default s 0 (le_of_not_lt h)]

theorem percentile_nonneg [FloorRing K] {l : List K} {q : K} (hq : 0 ≤ q)
    (h : ∀ x ∈ l, 0 ≤ x) : 0 ≤ percentile l q := by
  unfold percentile
  have hs : ∀ x ∈ sortList l, 0 ≤ x := fun x hx => h x (mem_sortList hx)
  by_cases h0 : (sortList l).length = 0
  · simp [h0]
  · rw [if_neg h0]
    dsimp only
    have hlen : (1 : K) ≤ ((sortList l).length : K) := by
      exact_mod_cast Nat.one_le_iff_ne_zero.mpr h0
    set pos := q / 100 * (((sortList l).length : K) - 1) with hposdef
    have hposnn : 0 ≤ pos :=
      mul_nonneg (div_nonneg hq (by norm_num)) (by linarith)
    have hlo : 0 ≤ (sortList l).getD (Nat.floor pos) 0 := getD_nonneg hs _
    have hhi : 0 ≤ (sortList l).getD
        (min (Nat.floor pos + 1) ((sortList l).length - 1)) 0 := getD_nonneg hs _
    have hfr0 : 0 ≤ pos - (Nat.floor pos : K) :=
      sub_nonneg.mpr (Nat.floor_le hposnn)
    have hfr1 : pos - (Nat.floor pos : K) ≤ 1 := by
      have := Nat.lt_floor_add_one pos
      linarith
    nlinarith [mul_nonneg hfr0 hhi, mul_nonneg (sub_nonneg.mpr hfr1) hlo]

theorem calculate_mahalanobis_nonneg (x mu : Fin d → ℝ)
    (C : Matrix (Fin d) (Fin d) ℝ) : 0 ≤ calculate_mahalanobis x mu C :=
  Real.sqrt_nonneg _

theorem calculate_mahalanobis_self (x : Fin d → ℝ)
    (C : Matrix (Fin d) (Fin d) ℝ) : calculate_mahalanobis x x C = 0 := by
  unfold calculate_mahalanobis
  dsimp only
  have h : (fun j => x j - x j) = (0 : Fin d → ℝ) := by
    funext j; simp
  rw [h, Matrix.zero_vecMul, Matrix.zero_dotProduct, max_self, Real.sqrt_zero]

theorem update_frozen_eq (ops : LinAlgOps K d) (m : StatisticalModel K d)
    (x : Fin d → K) (s limit : K) (h : m.is_frozen = true) :
    m.update ops x s limit = m := by
  unfold StatisticalModel.update
  rw [h]
  simp

theorem safe_invert_loop_frozen_result (ops : LinAlgOps K d)
    (cov : Matrix (Fin d) (Fin d) K) (base : K) :
    ∀ (n : ℕ) (eps : K), (safe_invert_loop ops cov base n eps).2.1 = true →
      safe_invert_loop ops cov base n eps
        = (ops.pinv (apply_regularization cov base), true, base) := by
  intro n
  induction n with
  | zero => intro eps _; rfl
  | succ n ih =>
    intro eps h
    cases hc : check_condition_number ops (apply_regularization cov eps) with
    | none =>
      simp only [safe_invert_loop, hc] at h ⊢
      exact ih _ h
    | some c =>
      by_cases hlt : c < CONDITION_NUMBER K
      · cases hi2 : ops.inv (apply_regularization cov eps) with
        | none =>
          simp only [safe_invert_loop, hc, hi2, if_pos hlt] at h ⊢
          exact ih _ h
        | some invc =>
          simp only [safe_invert_loop, hc, hi2, if_pos hlt] at h
          exact (Bool.false_ne_true h).elim
      · simp only [safe_invert_loop, hc, if_neg hlt] at h ⊢
        exact ih _ h

theorem safe_invert_loop_success_result (ops : LinAlgOps K d)
    (cov : Matrix (Fin d) (Fin d) K) (base : K) :
    ∀ (n : ℕ) (eps : K), (safe_invert_loop ops cov base n eps).2.1 = false →
      ∃ i : ℕ, i < n
        ∧ (safe_invert_loop ops cov base n eps).2.2 = eps * 10 ^ i
        ∧ (∃ c, check_condition_number ops
              (apply_regularization cov (eps * 10 ^ i)) = some c
            ∧ c < CONDITION_NUMBER K)
        ∧ ops.inv (apply_regularization cov (eps * 10 ^ i))
            = some (safe_invert_loop ops cov base n eps).1 := by
  intro n
  induction n with
  | zero => intro eps h; simp [safe_invert_loop] at h
  | succ n ih =>
    intro eps h
    cases hc : check_condition_number ops (apply_regularization cov eps) with
    | none =>
      simp only [safe_invert_loop, hc] at h ⊢
      rcases ih _ h with ⟨i, hi, he, hcnd, hinv⟩
      refine ⟨i + 1, by omega, by rw [he]; ring, ?_, ?_⟩
      · rw [show eps * 10 ^ (i + 1) = eps * 10 * 10 ^ i by ring]
        exact hcnd
      · rw [show eps * 10 ^ (i + 1) = eps * 10 * 10 ^ i by ring]
        exact hinv
    | some c =>
      by_cases hlt : c < CONDITION_NUMBER K
      · cases hi2 : ops.inv (apply_regularization cov eps) with
        | none =>
          simp only [safe_invert_loop, hc, hi2, if_pos hlt] at h ⊢
          rcases ih _ h with ⟨i, hi, he, hcnd, hinv⟩
          refine ⟨i + 1, by omega, by rw [he]; ring, ?_, ?_⟩
          · rw [show eps * 10 ^ (i + 1) = eps * 10 * 10 ^ i by ring]
            exact hcnd
          · rw [show eps * 10 ^ (i + 1) = eps * 10 * 10 ^ i by ring]
            exact hinv
        | some invc =>
          simp only [safe_invert_loop, hc, hi2, if_pos hlt] at h ⊢
          refine ⟨0, by omega, by rw [pow_zero, mul_one], ?_, ?_⟩
          · rw [pow_zero, mul_one]
            exact ⟨c, hc, hlt⟩
          · rw [pow_zero, mul_one, hi2]
      · simp only [safe_invert_loop, hc, if_neg hlt] at h ⊢
        rcases ih _ h with ⟨i, hi, he, hcnd, hinv⟩
        refine ⟨i + 1, by omega, by rw [he]; ring, ?_, ?_⟩
        · rw [show eps * 10 ^ (i + 1) = eps * 10 * 10 ^ i by ring]
          exact hcnd
        · rw [show eps * 10 ^ (i + 1) = eps * 10 * 10 ^ i by ring]
          exact hinv

/-- C5: `safe_invert` tries at most 5 regularisations with
`ε = ε₀·10^i, i < 5`; when it returns `frozen = false` the returned matrix
is the direct inverse of `regularise(cov, ε_used)` whose condition number
is finite and below `κ_max = 1e6`; when every attempt fails it returns the
pseudo-inverse of `regularise(cov, ε₀)` with `frozen = true` and
`ε_used = ε₀`. -/
theorem c5_safe_invert_contract (ops : LinAlgOps K d)
    (cov : Matrix (Fin d) (Fin d) K) (eps0 : K) :
    ((safe_invert ops cov eps0).2.1 = false →
      ∃ i : ℕ, i < 5
        ∧ (safe_invert ops cov eps0).2.2 = eps0 * 10 ^ i
        ∧ (∃ c, check_condition_number ops
              (apply_regularization cov ((safe_invert ops cov eps0).2.2)) = some c
            ∧ c < CONDITION_NUMBER K)
        ∧ ops.inv (apply_regularization cov ((safe_invert ops cov eps0).2.2))
            = some (safe_invert ops cov eps0).1)
    ∧ ((safe_invert ops cov eps0).2.1 = true →
      safe_invert ops cov eps0
        = (ops.pinv (apply_regularization cov eps0), true, eps0)) := by
  constructor
  · intro h
    rcases safe_invert_loop_success_result ops cov eps0 5 eps0 h with
      ⟨i, hi, he, hcnd, hinv⟩
    refine ⟨i, hi, he, ?_, ?_⟩
    · rw [show (safe_invert ops cov eps0).2.2 = eps0 * 10 ^ i from he]
      exact hcnd
    · rw [show (safe_invert ops cov eps0).2.2 = eps0 * 10 ^ i from he]
      exact hinv
  · intro h
    exact safe_invert_loop_frozen_result ops cov eps0 5 eps0 h

/-- C5 witness: with an oracle whose condition check and inversion always
succeed, the first attempt returns the direct inverse unfrozen. -/
theorem c5_safe_invert_contract_witness :
    ∃ i : ℕ, i < 5
      ∧ (safe_invert opsQ1 0 (1 / 10000)).2.2 = (1 / 10000 : ℚ) * 10 ^ i
      ∧ (∃ c, check_condition_number opsQ1
            (apply_regularization 0 ((safe_invert opsQ1 0 (1 / 10000)).2.2)) = some c
          ∧ c < CONDITION_NUMBER ℚ)
      ∧ opsQ1.inv (apply_regularization 0 ((safe_invert opsQ1 0 (1 / 10000)).2.2))
          = some (safe_invert opsQ1 0 (1 / 10000)).1 :=
  (c5_safe_invert_contract opsQ1 0 (1 / 10000)).1 (by
    norm_num [safe_invert, safe_invert_loop, check_condition_number, opsQ1,
      CONDITION_NUMBER])

/-- C6: one risk step adds `4·(s-1)²` when `s > 1` and decays by `0.95`
otherwise; the alert flag is the post-increment, pre-hysteresis value
compared against the alert threshold; on alert the returned risk is half
that value (not zero), and the threshold is unchanged. -/
theorem c6_risk_update_step (acc : RiskAccumulator K) (s : K) :
    ((acc.update s).2 = true
        ↔ acc.alert_threshold
            < (if 1 < s then acc.risk + 4 * (s - 1) ^ 2 else (95 / 100) * acc.risk))
    ∧ (acc.update s).1.risk
        = (if acc.alert_threshold
              < (if 1 < s then acc.risk + 4 * (s - 1) ^ 2 else (95 / 100) * acc.risk)
            then (1 / 2)
              * (if 1 < s then acc.risk + 4 * (s - 1) ^ 2 else (95 / 100) * acc.risk)
            else (if 1 < s then acc.risk + 4 * (s - 1) ^ 2 else (95 / 100) * acc.risk))
    ∧ (acc.update s).1.alert_threshold = acc.alert_threshold := by
  unfold RiskAccumulator.update
  dsimp only
  rw [mul_comm acc.risk ((95 : K) / 100)]
  refine ⟨by simp, ?_, rfl⟩
  simp only [decide_eq_true_eq]
  split_ifs with h1 <;> ring

/-- C8: one CUSUM step sets `c` to `max 0 (c + (s - k))`, reports drift
exactly when that value exceeds the threshold `H`, stores exactly 0 on
drift, keeps `c ≥ 0` unconditionally, and leaves `k` and `H` unchanged. -/
theorem c8_cusum_update_step (det : DriftDetector K) (s : K) :
    ((det.update_cusum s).2 = true
        ↔ det.threshold < max 0 (det.c_t + (s - det.k)))
    ∧ (det.update_cusum s).1.c_t
        = (if det.threshold < max 0 (det.c_t + (s - det.k)) then 0
           else max 0 (det.c_t + (s - det.k)))
    ∧ 0 ≤ (det.update_cusum s).1.c_t
    ∧ (det.update_cusum s).1.k = det.k
    ∧ (det.update_cusum s).1.threshold = det.threshold := by
  unfold DriftDetector.update_cusum
  dsimp only
  refine ⟨by simp, by simp, ?_, rfl, rfl⟩
  simp only [decide_eq_true_eq]
  split_ifs with h1
  · exact le_refl 0
  · exact le_max_left 0 _

/-- C4 (amended): when `update(s1)` reports an alert the returned risk is
half the post-increment value, and a following `update(s2)` with `s2 ≤ 1`
reports an alert exactly when `0.95` times that halved risk still exceeds
the alert threshold — which is possible, so a re-alert is not excluded. -/
theorem c4_alert_halving_and_rearm (acc : RiskAccumulator K) (s1 s2 : K)
    (h1 : (acc.update s1).2 = true) (h2 : s2 ≤ 1) :
    (acc.update s1).1.risk
        = (if 1 < s1 then acc.risk + 4 * (s1 - 1) ^ 2 else acc.risk * (95 / 100))
          * (1 / 2)
    ∧ ((((acc.update s1).1).update s2).2 = true
        ↔ acc.alert_threshold < (acc.update s1).1.risk * (95 / 100)) := by
  unfold RiskAccumulator.update at h1 ⊢
  dsimp only at h1 ⊢
  rw [decide_eq_true_eq] at h1
  have hfirst :
      (if decide (acc.alert_threshold
            < (if 1 < s1 then acc.risk + 4 * (s1 - 1) ^ 2
               else acc.risk * (95 / 100))) = true
        then (if 1 < s1 then acc.risk + 4 * (s1 - 1) ^ 2
              else acc.risk * (95 / 100)) * (1 / 2)
        else (if 1 < s1 then acc.risk + 4 * (s1 - 1) ^ 2
              else acc.risk * (95 / 100)))
      = (if 1 < s1 then acc.risk + 4 * (s1 - 1) ^ 2
         else acc.risk * (95 / 100)) * (1 / 2) := by
    rw [if_pos (decide_eq_true_eq.mpr h1)]
  refine ⟨hfirst, ?_⟩
  rw [hfirst, if_neg (not_lt.mpr h2)]
  simp

/-- C4 witness: the accumulator at risk 0 and threshold 20, fed severity 6
then severity 1, satisfies the amended property. -/
theorem c4_alert_halving_witness :
    (riskAcc20.update 6).1.risk
        = (if (1 : ℚ) < 6 then riskAcc20.risk + 4 * (6 - 1) ^ 2
           else riskAcc20.risk * (95 / 100)) * (1 / 2)
    ∧ ((((riskAcc20.update 6).1).update 1).2 = true
        ↔ riskAcc20.alert_threshold < (riskAcc20.update 6).1.risk * (95 / 100)) :=
  c4_alert_halving_and_rearm riskAcc20 6 1
    (by norm_num [RiskAccumulator.update, riskAcc20]) (by norm_num)

/-- C4 counterexample: after the alert edge caused by severity 6 (risk 100
halved to 50), the very next call with severity 1 ≤ 1 re-triggers the
alert (risk decays to 47.5, still above the threshold 20), refuting the
claim that a severity ≤ 1 never reports an alert right after an edge. -/
theorem c4_counterexample_realert :
    (riskAcc20.update 6).2 = true ∧ ((1 : ℚ) ≤ 1)
      ∧ (((riskAcc20.update 6).1).update 1).2 = true := by
  norm_num [RiskAccumulator.update, riskAcc20]

/-- C7: `StatisticalModel.update` at the default contamination limit 0.8 is
the identity on the whole model state whenever the severity reaches the
limit, the model is uninitialised, or the model is frozen. -/
theorem c7_update_noop_when_gated (ops : LinAlgOps K d)
    (m : StatisticalModel K d) (x : Fin d → K) (s : K)
    (h : CONTAMINATION_LIMIT K ≤ s ∨ m.is_initialized = false
        ∨ m.is_frozen = true) :
    m.update ops x s (CONTAMINATION_LIMIT K) = m := by
  unfold StatisticalModel.update
  rcases h with h | h | h
  · by_cases h2 : (!m.is_initialized || m.is_frozen) = true
    · rw [if_pos h2]
    · rw [if_neg h2, if_pos h]
  · rw [h]; simp
  · rw [h]; simp

/-- C7 witness: an initialised, unfrozen model fed severity 1 ≥ 0.8 is
exactly unchanged. -/
theorem c7_update_noop_witness :
    freshModelQ.update opsQ1 ![0] 1 (CONTAMINATION_LIMIT ℚ) = freshModelQ :=
  c7_update_noop_when_gated opsQ1 freshModelQ ![0] 1
    (Or.inl (by norm_num [CONTAMINATION_LIMIT]))

/-- C2 (amended): `StatisticalModel.update` on a frozen model leaves
(mu, cov, cov_inv) unchanged; the engine-level drift snap, however, is not
guarded by the freeze flag and can overwrite a frozen short model (see the
counterexample). -/
theorem c2_frozen_update_immutable (ops : LinAlgOps K d)
    (m : StatisticalModel K d) (x : Fin d → K) (s limit : K)
    (h : m.is_frozen = true) :
    (m.update ops x s limit).mu = m.mu
    ∧ (m.update ops x s limit).cov = m.cov
    ∧ (m.update ops x s limit).cov_inv = m.cov_inv := by
  rw [update_frozen_eq ops m x s limit h]
  exact ⟨rfl, rfl, rfl⟩

/-- C2 witness: a concrete frozen model is untouched by an update. -/
theorem c2_frozen_update_immutable_witness :
    (frozenModelQ.update opsQ1 ![0] 0 (CONTAMINATION_LIMIT ℚ)).mu
        = frozenModelQ.mu
    ∧ (frozenModelQ.update opsQ1 ![0] 0 (CONTAMINATION_LIMIT ℚ)).cov
        = frozenModelQ.cov
    ∧ (frozenModelQ.update opsQ1 ![0] 0 (CONTAMINATION_LIMIT ℚ)).cov_inv
        = frozenModelQ.cov_inv :=
  c2_frozen_update_immutable opsQ1 frozenModelQ ![0] 0 (CONTAMINATION_LIMIT ℚ) rfl

/-- C10: in a committed online update, the new covariance is
`(1-λ)Σ + λ(x-μ)(x-μ)ᵀ` with the pre-update mean `μ`, and the new mean is
`(1-λ)μ + λx`; both use the same pre-update `μ`. -/
theorem c10_update_commits_pre_update_mean (ops : LinAlgOps K d)
    (m : StatisticalModel K d) (x : Fin d → K) (s limit : K)
    (hinit : m.is_initialized = true) (hfroz : m.is_frozen = false)
    (hs : s < limit)
    (hok : (safe_invert ops (update_covariance m.cov m.mu x m.lambda_factor)
        (EPSILON_BASE K)).2.1 = false) :
    (m.update ops x s limit).cov
        = (1 - m.lambda_factor) • m.cov
          + m.lambda_factor
            • Matrix.of (fun i j => (x i - m.mu i) * (x j - m.mu j))
    ∧ (m.update ops x s limit).mu
        = fun j => (1 - m.lambda_factor) * m.mu j + m.lambda_factor * x j := by
  unfold StatisticalModel.update
  rw [hinit, hfroz]
  simp only [Bool.not_true, Bool.or_self, Bool.false_or, if_false]
  rw [if_neg (not_le.mpr hs)]
  have hcond : ¬ ((safe_invert ops (update_covariance m.cov m.mu x m.lambda_factor)
      (EPSILON_BASE K)).2.1 = true) := by
    rw [hok]
    exact Bool.false_ne_true
  rw [if_neg hcond]
  exact ⟨rfl, rfl⟩

/-- C10 witness: a concrete committed update over `ℚ`. -/
theorem c10_update_commits_witness :
    (freshModelQ.update opsQ1 ![1] 0 (CONTAMINATION_LIMIT ℚ)).cov
        = (1 - freshModelQ.lambda_factor) • freshModelQ.cov
          + freshModelQ.lambda_factor
            • Matrix.of (fun i j => (![1] i - freshModelQ.mu i)
                * (![1] j - freshModelQ.mu j))
    ∧ (freshModelQ.update opsQ1 ![1] 0 (CONTAMINATION_LIMIT ℚ)).mu
        = fun j => (1 - freshModelQ.lambda_factor) * freshModelQ.mu j
            + freshModelQ.lambda_factor * ![1] j :=
  c10_update_commits_pre_update_mean opsQ1 freshModelQ ![1] 0
    (CONTAMINATION_LIMIT ℚ) rfl rfl (by norm_num [CONTAMINATION_LIMIT])
    (by norm_num [safe_invert, safe_invert_loop, check_condition_number,
      opsQ1, CONDITION_NUMBER])

/-- C9: loading persisted state is total and conservative: a missing model
archive, a corrupted model archive, a malformed JSON state file, or a state
dict with no `"threshold"` key all make `_attempt_load_state` restore
nothing, leaving the engine in Training mode; no error escapes. -/
theorem c9_load_policy (fs fl : FileState (ModelData K d))
    (fj : FileState (StateDict K))
    (h : fs = .missing ∨ fl = .missing ∨ fs = .corrupt ∨ fl = .corrupt
        ∨ fj = .corrupt ∨ (load_state fj).lookup "threshold" = none) :
    attempt_load_state fs fl fj = none
    ∧ is_training_after_load fs fl fj = true := by
  have hmain : attempt_load_state fs fl fj = none := by
    unfold attempt_load_state
    rcases h with h | h | h | h | h | h
    · subst h; simp [load_model, FileState.existsb, npLoad]
    · subst h; cases hs : load_model fs <;>
        simp [load_model, FileState.existsb, npLoad]
    · subst h; simp [load_model, FileState.existsb, npLoad]
    · subst h; cases hs : load_model fs <;>
        simp [load_model, FileState.existsb, npLoad]
    · subst h
      cases hs : load_model fs <;> cases hl : load_model fl <;>
        simp [load_state, FileState.existsb, jsonLoad]
    · cases hs : load_model fs <;> cases hl : load_model fl <;> simp [h]
  refine ⟨hmain, ?_⟩
  unfold is_training_after_load
  rw [hmain]
  rfl

theorem sortList_pair_zero : sortList ([0, 0] : List ℝ) = [0, 0] := by
  simp [sortList, insertSorted]

theorem percentile_pair_zero : percentile ([0, 0] : List ℝ) 99 = 0 := by
  have hfloor : Nat.floor ((99 : ℝ) / 100 * (2 - 1)) = 0 :=
    Nat.floor_eq_zero.mpr (by norm_num)
  unfold percentile
  dsimp only
  rw [sortList_pair_zero]
  simp [hfloor]

/-- C1 (amended): after `init_from_batch` the model is initialised and the
stored threshold — the raw 99th percentile of the batch Mahalanobis
distances, with no positive floor in the source — is non-negative. -/
theorem c1_init_threshold_nonneg {d : ℕ} (ops : LinAlgOps ℝ d)
    (m : StatisticalModel ℝ d) (data : List (Fin d → ℝ)) :
    (m.init_from_batch ops data).is_initialized = true
    ∧ 0 ≤ (m.init_from_batch ops data).threshold := by
  refine ⟨rfl, ?_⟩
  unfold StatisticalModel.init_from_batch
  dsimp only
  apply percentile_nonneg (by norm_num)
  intro y hy
  rcases List.mem_map.mp hy with ⟨x, hx, rfl⟩
  exact calculate_mahalanobis_nonneg _ _ _

/-- C1 counterexample: on the degenerate batch of two identical rows the
stored threshold is exactly 0, refuting both the claimed strict positivity
and the claimed floor at a tiny positive value. -/
theorem c1_counterexample_degenerate_batch :
    (modelInitR.init_from_batch opsNoneR1 batchConst).threshold = 0 := by
  have hmu : batchMean ([![5], ![5]] : List (Fin 1 → ℝ)) = ![5] := by
    funext j
    fin_cases j
    simp [batchMean]
  have hdist : ∀ C : Matrix (Fin 1) (Fin 1) ℝ,
      batchConst.map (fun x => calculate_mahalanobis x (batchMean batchConst) C)
        = [0, 0] := by
    intro C
    show ([![5], ![5]] : List (Fin 1 → ℝ)).map
        (fun x => calculate_mahalanobis x
          (batchMean ([![5], ![5]] : List (Fin 1 → ℝ))) C) = [0, 0]
    rw [hmu]
    simp [calculate_mahalanobis_self]
  unfold StatisticalModel.init_from_batch
  dsimp only
  rw [hdist]
  exact percentile_pair_zero

/-- C3 (amended): severity is non-negative for all inputs; and under the
extra assumptions that the threshold is positive and the quadratic form of
`cov_inv` is positive definite, severity vanishes exactly at `x = mu`. -/
theorem c3_severity_nonneg_zero_iff {d : ℕ} (x mu : Fin d → ℝ)
    (C : Matrix (Fin d) (Fin d) ℝ) (T : ℝ) :
    0 ≤ calculate_severity x mu C T
    ∧ (0 < T → PosDefQuadForm C →
        (calculate_severity x mu C T = 0 ↔ x = mu)) := by
  constructor
  · unfold calculate_severity
    dsimp only
    split_ifs with h
    · exact le_refl 0
    · exact div_nonneg (calculate_mahalanobis_nonneg x mu C)
        (le_of_lt (not_le.mp h))
  · intro hT hPD
    unfold calculate_severity
    dsimp only
    rw [if_neg (not_le.mpr hT), div_eq_zero_iff]
    constructor
    · rintro (h | h)
      · unfold calculate_mahalanobis at h
        dsimp only at h
        rw [Real.sqrt_eq_zero'] at h
        by_contra hne
        have hdel : (fun j => x j - mu j) ≠ (0 : Fin d → ℝ) := by
          intro h0
          apply hne
          funext j
          have hj := congrFun h0 j
          simp only [Pi.zero_apply] at hj
          linarith
        have hpos := hPD _ hdel
        have hmax : (0 : ℝ) < max 0 (Matrix.dotProduct
            (Matrix.vecMul (fun j => x j - mu j) C) (fun j => x j - mu j)) :=
          lt_max_of_lt_right hpos
        linarith
      · exact absurd h (ne_of_gt hT)
    · intro hxmu
      subst hxmu
      left
      exact calculate_mahalanobis_self x C

/-- C3 witness: at `x = ![2]`, `mu = ![1]`, identity inverse covariance and
threshold 1, the amended equivalence holds. -/
theorem c3_severity_witness :
    (0 : ℝ) < 1
    ∧ (calculate_severity ![2] ![1] (1 : Matrix (Fin 1) (Fin 1) ℝ) 1 = 0
        ↔ (![2] : Fin 1 → ℝ) = ![1]) := by
  refine ⟨by norm_num, ?_⟩
  apply (c3_severity_nonneg_zero_iff ![2] ![1] (1 : Matrix (Fin 1) (Fin 1) ℝ) 1).2
    (by norm_num)
  intro v hv
  rw [Matrix.vecMul_one]
  have hv0 : v 0 ≠ 0 := by
    intro h0
    apply hv
    funext j
    have hj : j = 0 := Subsingleton.elim j 0
    rw [hj, h0]
    simp
  have hdot : Matrix.dotProduct v v = v 0 * v 0 := by
    simp [Matrix.dotProduct, Fin.sum_univ_one]
  rw [hdot]
  exact mul_self_pos.mpr hv0

/-- C3 counterexample: with the (finite) zero matrix as `cov_inv` and
threshold 1, the severity is 0 while `x ≠ mu`, refuting the unrestricted
"equals 0 iff x = mu". -/
theorem c3_counterexample_zero_matrix :
    calculate_severity ![1] ![0] (0 : Matrix (Fin 1) (Fin 1) ℝ) 1 = 0
    ∧ (![1] : Fin 1 → ℝ) ≠ ![0] := by
  constructor
  · unfold calculate_severity calculate_mahalanobis
    dsimp only
    rw [Matrix.vecMul_zero, Matrix.zero_dotProduct, max_self, Real.sqrt_zero,
      if_neg (by norm_num : ¬ (1 : ℝ) ≤ 0)]
    exact zero_div 1
  · intro h
    have h0 := congrFun h 0
    simp [Matrix.cons_val_zero] at h0

/-- C2 counterexample: a monitoring tick in which CUSUM detects drift
overwrites the frozen short model's mean (and covariance tuple) with the
long model's values — the drift snap is not guarded by `is_frozen`, so a
frozen model's tuple is mutated by a per-tick engine step before any
retrain. -/
theorem c2_counterexample_drift_snap_mutates_frozen :
    engineEx.model_short.is_frozen = true
    ∧ (engineEx.handle_monitoring opsNoneR1 ![0]).model_short.mu
        ≠ engineEx.model_short.mu := by
  have hsev : calculate_severity ![0] (![0] : Fin 1 → ℝ)
      (1 : Matrix (Fin 1) (Fin 1) ℝ) 1 = 0 := by
    unfold calculate_severity
    dsimp only
    rw [calculate_mahalanobis_self, if_neg (by norm_num : ¬ (1 : ℝ) ≤ 0)]
    exact zero_div 1
  have hdrift :
      ((⟨21 / 2, 5 / 100, 10⟩ : DriftDetector ℝ).update_cusum 0).2 = true := by
    unfold DriftDetector.update_cusum
    dsimp only
    have h1 : (0 : ℝ) ≤ 21 / 2 + (0 - 5 / 100) := by norm_num
    rw [max_eq_right h1, decide_eq_true_eq]
    norm_num
  have hcont : is_contaminated (0 : ℝ) (CONTAMINATION_LIMIT ℝ) = false := by
    unfold is_contaminated CONTAMINATION_LIMIT
    rw [decide_eq_false_iff_not]
    norm_num
  refine ⟨rfl, ?_⟩
  have hres : (engineEx.handle_monitoring opsNoneR1 ![0]).model_short.mu
      = ![0] := by
    unfold SentinelEngine.handle_monitoring engineEx longFrozenR shortFrozenR
    dsimp only
    rw [hsev, hdrift, if_pos rfl, hcont, if_neg Bool.false_ne_true]
    dsimp only
    rw [update_frozen_eq opsNoneR1 _ ![0] 0 (CONTAMINATION_LIMIT ℝ) rfl]
  rw [hres]
  intro h
  have h0 := congrFun h 0
  norm_num [engineEx, shortFrozenR] at h0

/-- C9 witness: a missing short-model archive forces Training mode even
when the other files are intact. -/
theorem c9_load_policy_witness :
    attempt_load_state FileState.missing (FileState.good modelDataQ)
        (FileState.good ([("threshold", 3)] : StateDict ℚ)) = none
    ∧ is_training_after_load FileState.missing (FileState.good modelDataQ)
        (FileState.good ([("threshold", 3)] : StateDict ℚ)) = true :=
  c9_load_policy FileState.missing (FileState.good modelDataQ)
    (FileState.good ([("threshold", 3)] : StateDict ℚ)) (Or.inl rfl)

end Sentinel
